import Mathlib

/-!
Verification of the interview-assistant answer-evaluation pipeline.

The definitions below are a shallow embedding of the Python sources:
  * `scripts/utils/scoring.py` — numeric score extraction and the
    deterministic fallback heuristic (`score_answer_with_llm`);
  * `scripts/agent.py` — the synchronous scorer
    `handle_candidate_text_answer_fast` and `_is_explain_trigger`;
  * `scripts/db.py` — the persistence operations on a single candidate row
    and its answer rows;
  * `app.py` — the per-candidate session state machine
    (`candidate_next_question`, `candidate_answer_audio`).

Machine reals (Python floats) are modelled as rationals; Python's
`round(x, 2)` (round-half-to-even on the scaled value) is modelled exactly
on rationals.  The scoring model, the retrieval index and the transcriber
are external effects and appear as oracle parameters; call counts and
file-system effects are recorded explicitly so that claims about "no call
was made" or "the raw file was deleted" are statable.  `\d` of the Python
regex and Python whitespace are modelled over ASCII, which covers every
string the program manipulates.
-/

namespace InterviewAssistant

/-! ### Python string primitives -/

/-- ASCII decimal digit, modelling `\d` of the regex and `str.isdigit`
on the characters the pipeline handles. -/
def isDig (c : Char) : Bool := 48 ≤ c.toNat && c.toNat ≤ 57

/-- Python `str.strip()` on a character list: drop whitespace from both ends. -/
def pyStripL (l : List Char) : List Char :=
  ((l.dropWhile Char.isWhitespace).reverse.dropWhile Char.isWhitespace).reverse

/-- Python `str.strip()`. -/
def pyStrip (s : String) : String := ⟨pyStripL s.data⟩

/-- Python `str.lower()` (ASCII). -/
def pyLower (s : String) : String := ⟨s.data.map Char.toLower⟩

/-- Helper for Python `str.split()` with no separator: accumulates the
current word (reversed) and splits on whitespace runs, dropping empty words. -/
def splitWordsAux : List Char → List Char → List (List Char)
  | [], acc => if acc.isEmpty then [] else [acc.reverse]
  | c :: t, acc =>
    if c.isWhitespace then
      (if acc.isEmpty then [] else [acc.reverse]) ++ splitWordsAux t []
    else
      splitWordsAux t (c :: acc)

/-- Python `str.split()` (no argument): whitespace-delimited tokens. -/
def pySplit (s : String) : List String := (splitWordsAux s.data []).map fun l => ⟨l⟩

/-- Word count `len(s.split())`, the count used by the fallback heuristic. -/
def wordCount (s : String) : ℕ := (splitWordsAux s.data []).length

/-- Boolean list-prefix test. -/
def isPrefixL : List Char → List Char → Bool
  | [], _ => true
  | _ :: _, [] => false
  | a :: as, b :: bs => a == b && isPrefixL as bs

/-- Python substring containment `pat in s` on character lists. -/
def containsSub (pat : List Char) : List Char → Bool
  | [] => isPrefixL pat []
  | c :: t => isPrefixL pat (c :: t) || containsSub pat t

/-! ### Python `round(x, 2)` -/

/-- Round-half-to-even to an integer, the rounding Python's `round` uses. -/
def roundHalfEven (x : ℚ) : ℤ :=
  if Int.fract x < 1 / 2 then ⌊x⌋
  else if 1 / 2 < Int.fract x then ⌊x⌋ + 1
  else if ⌊x⌋ % 2 = 0 then ⌊x⌋ else ⌊x⌋ + 1

/-- Python `round(x, 2)` modelled exactly on rationals. -/
def pyRound2 (x : ℚ) : ℚ := (roundHalfEven (x * 100) : ℚ) / 100

/-! ### The numeric-extraction regex

`_NUMBER_RE = re.compile(r'(?<!\d)(10(?:\.0+)?|\d(?:\.\d+)?)(?!\d)')` from
`scripts/utils/scoring.py`, modelled as a leftmost search with the engine's
backtracking behaviour made explicit:
  * at each position the left alternative `10(?:\.0+)?` is tried first,
    greedily, backtracking through shorter fraction parts and then the empty
    optional group when the `(?!\d)` lookahead fails;
  * then the right alternative `\d(?:\.\d+)?` likewise;
  * a position whose preceding character is a digit is skipped (`(?<!\d)`).
-/

/-- The `(?!\d)` negative lookahead fails exactly when a digit is next. -/
def digitAhead : List Char → Bool
  | [] => false
  | c :: _ => isDig c

/-- Alternative `10(?:\.0+)?` with the leading "10" already consumed:
returns the fraction part actually matched and the remaining input, or
`none` when the alternative (with its lookahead) cannot match here. -/
def branch1Tail : List Char → Option (List Char × List Char)
  | [] => some ([], [])
  | c :: t =>
    if c = '.' then
      let zs := t.takeWhile fun x => x = '0'
      let rem := t.dropWhile fun x => x = '0'
      if zs.isEmpty then some ([], c :: t)
      else if digitAhead rem then some ([], c :: t)
      else some ('.' :: zs, rem)
    else if isDig c then none
    else some ([], c :: t)

/-- Alternative `\d(?:\.\d+)?` (with the `(?!\d)` lookahead): returns the
matched token and the remaining input. -/
def branch2 : List Char → Option (List Char × List Char)
  | [] => none
  | c :: rest =>
    if isDig c then
      match rest with
      | [] => some ([c], [])
      | c2 :: t =>
        if c2 = '.' then
          let ds := t.takeWhile isDig
          let rem := t.dropWhile isDig
          if ds.isEmpty then some ([c], c2 :: t)
          else if digitAhead rem then some ([c], c2 :: t)
          else some (c :: c2 :: ds, rem)
        else if isDig c2 then none
        else some ([c], c2 :: t)
    else none

/-- Try the full alternation at the current position. -/
def matchHere : List Char → Option (List Char × List Char)
  | [] => branch2 []
  | [c] => branch2 [c]
  | c1 :: c2 :: rest =>
    if c1 = '1' ∧ c2 = '0' then
      match branch1Tail rest with
      | some (frac, rem) => some (c1 :: c2 :: frac, rem)
      | none => branch2 (c1 :: c2 :: rest)
    else branch2 (c1 :: c2 :: rest)

/-- The `(?<!\d)` lookbehind: a position is skipped when the previous
character is a digit. -/
def prevBlocks : Option Char → Bool
  | none => false
  | some c => isDig c

/-- Model of `_NUMBER_RE.search`: leftmost match, scanning positions left to right. -/
def regexSearchAux : Option Char → List Char → Option (List Char)
  | _, [] => none
  | prev, c :: rest =>
    if prevBlocks prev then regexSearchAux (some c) rest
    else
      match matchHere (c :: rest) with
      | some (tok, _) => some tok
      | none => regexSearchAux (some c) rest

/-- Value of a digit-string via `float()`: `natOfDigits "85" = 85`. -/
def natOfDigits (l : List Char) : ℕ := l.foldl (fun a c => 10 * a + (c.toNat - 48)) 0

/-- Python `float()` restricted to plain decimal literals `d+(.d+)?`, the
only shapes the regex can produce; anything else fails (is `none`). -/
def parseDecimal (l : List Char) : Option ℚ :=
  let ip := l.takeWhile fun c => c ≠ '.'
  let rest := l.dropWhile fun c => c ≠ '.'
  if ip.isEmpty then none
  else if ¬ ip.all isDig then none
  else
    match rest with
    | [] => some (natOfDigits ip)
    | _ :: frac =>
      if frac.isEmpty then none
      else if ¬ frac.all isDig then none
      else some ((natOfDigits ip : ℚ) + (natOfDigits frac : ℚ) / (10 : ℚ) ^ frac.length)

/-- Model of `_extract_score` from `scripts/utils/scoring.py`: search with
`_NUMBER_RE`, parse the captured group, accept only values in `[0, 10]`. -/
def extract_score (text : String) : Option ℚ :=
  match regexSearchAux none text.data with
  | none => none
  | some tok =>
    match parseDecimal tok with
    | none => none
    | some val => if 0 ≤ val ∧ val ≤ 10 then some val else none

/-! ### `score_answer_with_llm` -/

/-- The fixed depth-keyword list of the fallback heuristic. -/
def depthKeywords : List String := ["because", "architecture", "scalable", "tradeoff"]

/-- The fallback block of `score_answer_with_llm`: `0.0` for a blank answer,
otherwise base `4.0` plus the length factor and the depth bonus, clamped to
`[0, 10]` and rounded to two decimals. -/
def fallbackHeuristic (answer : String) : ℚ :=
  if pyStrip answer = "" then 0
  else
    let length_factor : ℚ := min ((wordCount answer : ℚ) / 80) 1
    let depth_bonus : ℚ :=
      if depthKeywords.any (fun k => containsSub k.data (pyLower answer).data) then 2 else 0
    pyRound2 (max 0 (min 10 (4 + length_factor * 4 + depth_bonus)))

/-- The retry loop of `score_answer_with_llm`.  `llm i` is the scoring
model's raw completion on the `i`-th call for this prompt (the prompt is
identical across retries).  Returns the first extracted score, if any,
together with the number of scoring-model calls made. -/
def scoreLoop (llm : ℕ → String) : ℕ → ℕ → Option ℚ × ℕ
  | 0, used => (none, used)
  | n + 1, used =>
    match extract_score (llm used) with
    | some v => (some v, used + 1)
    | none => scoreLoop llm n (used + 1)

/-- Model of `score_answer_with_llm` from `scripts/utils/scoring.py`.  The `question`
parameter only feeds the prompt text, which the oracle already encapsulates. -/
def score_answer_with_llm (llm : ℕ → String) (question answer : String) (retries : ℕ) : ℚ :=
  match (scoreLoop llm (retries + 1) 0).1 with
  | some score => pyRound2 score
  | none => fallbackHeuristic answer

/-! ### `handle_candidate_text_answer_fast` and the explain trigger -/

/-- An apostrophe, kept out of string literals. -/
def apoc : Char := Char.ofNat 39

/-- The set `EXPLAIN_TRIGGERS` from `scripts/agent.py`. -/
def EXPLAIN_TRIGGERS : List String :=
  ["explain", "explain please", "can you explain", "idk", "i dont know",
   "i don" ++ ⟨[apoc]⟩ ++ "t know", "no idea"]

/-- Model of `_is_explain_trigger` from `scripts/agent.py`. -/
def is_explain_trigger (t : String) : Bool :=
  let t_norm := pyStrip (pyLower t)
  if EXPLAIN_TRIGGERS.contains t_norm then true
  else if containsSub "explain".data t_norm.data ∧ (pySplit t_norm).length ≤ 6 then true
  else false

/-- The prompt `_rag_answer` receives on the explain-trigger path. -/
def explainPrompt (question : String) : String :=
  "Explain this interview question in simple terms and give a short model answer: " ++ question

/-- The coaching prompt of the low-score remediation path (the f-string
stripped of its surrounding whitespace). -/
def coachPrompt (question transcript : String) : String :=
  "You are an interview coach.\nThe question was: " ++ question ++
  "\nThe candidate answered: " ++ transcript ++
  "\n\n1) Briefly explain what a strong answer should include.\n2) Tell the candidate how they can improve their answer next time."

/-- Result of the synchronous scorer, with explicit call counters for the
scoring model (`llmCalls`) and the retrieval index (`ragCalls`). -/
structure HandleResult where
  score : ℚ
  explanation : Option String
  llmCalls : ℕ
  ragCalls : ℕ
deriving DecidableEq

/-- Model of `handle_candidate_text_answer_fast` from `scripts/agent.py`.
`rag uid prompt` is the retrieval-index answer (`_rag_answer`); `llm` is the
scoring model as in `score_answer_with_llm`.  Oracles are total: the
in-source `except` arms for oracle failures are therefore unreachable and
not modelled. -/
def handle_candidate_text_answer_fast (rag : String → String → String) (llm : ℕ → String)
    (candidate_id question transcript : String) (force_next_if_empty : Bool) : HandleResult :=
  let t := pyStrip transcript
  if t = "" then
    if force_next_if_empty = false then
      { score := 0, explanation := some "No answer captured; please repeat.",
        llmCalls := 0, ragCalls := 0 }
    else
      { score := 0,
        explanation := some "No answer detected. Try speaking a bit louder or closer to the mic.",
        llmCalls := 0, ragCalls := 0 }
  else if is_explain_trigger t then
    { score := 0, explanation := some (rag candidate_id (explainPrompt question)),
      llmCalls := 0, ragCalls := 1 }
  else
    let score := score_answer_with_llm llm question t 1
    { score := score
      explanation := if score < 4 then some (rag candidate_id (coachPrompt question t)) else none
      llmCalls := (scoreLoop llm 2 0).2
      ragCalls := if score < 4 then 1 else 0 }

/-! ### Persistence layer (`scripts/db.py`), one candidate's rows -/

/-- One row of the `answers` table (the Answer Record). -/
structure AnswerRecord where
  question : String
  answer : String
  score : ℚ
  explanation : Option String
deriving DecidableEq

/-- The candidate's row plus their answer rows, in insertion (`id ASC`) order. -/
structure DB where
  finished : Bool
  avg_score : ℚ
  answers : List AnswerRecord
deriving DecidableEq

/-- Model of `create_candidate`: fresh row, `finished` and `avg_score` at their
schema defaults `0`. -/
def create_candidate : DB := { finished := false, avg_score := 0, answers := [] }

/-- Model of `save_answer`: append-only insert into `answers`. -/
def save_answer (db : DB) (r : AnswerRecord) : DB := { db with answers := db.answers ++ [r] }

/-- Model of `finish_candidate`: set `finished = 1`. -/
def finish_candidate (db : DB) : DB := { db with finished := true }

/-- SQL `AVG(score)` with the `or 0` of `update_candidate_score`: `NULL`
(no rows) becomes `0`, otherwise the arithmetic mean. -/
def sqlAvg (l : List ℚ) : ℚ := if l.isEmpty then 0 else l.sum / l.length

/-- Model of `update_candidate_score`: recompute `avg_score` from the answer rows. -/
def update_candidate_score (db : DB) : DB :=
  { db with avg_score := sqlAvg (db.answers.map fun r => r.score) }

/-! ### Session state machine (`app.py`) -/

/-- One candidate session: the immutable question set, the session cursor
`q_index`, and the candidate's database rows. -/
structure AppState where
  questions : List String
  q_index : ℕ
  db : DB
deriving DecidableEq

/-- JSON reply of `/candidate/next_question`. -/
inductive NextQuestionResp where
  | done (message : String)
  | question (q : String) (display_index : ℕ)
deriving DecidableEq

/-- Model of `candidate_next_question` from `app.py` (session present): a pure read
of the cursor; when the cursor has consumed all questions it finalizes
(`finish_candidate` then `update_candidate_score`) and reports done. -/
def candidate_next_question (s : AppState) : AppState × NextQuestionResp :=
  if h : s.questions.length ≤ s.q_index then
    ({ s with db := update_candidate_score (finish_candidate s.db) },
     NextQuestionResp.done "Interview complete!")
  else
    (s, NextQuestionResp.question (s.questions.get ⟨s.q_index, by omega⟩) (s.q_index + 1))

/-- External effects of one `/candidate/answer` call: whether the session
cookie resolves, whether an audio part is present, whether `AudioSegment`
conversion succeeds, the whisper transcript (`none` models a transcription
failure, caught and turned into `""`), and the scorer's oracles. -/
structure SubmitOracle where
  hasSession : Bool
  hasAudio : Bool
  convOk : Bool
  transcription : Option String
  rag : String → String → String
  llm : ℕ → String

/-- JSON reply of `/candidate/answer`. -/
inductive SubmitResp where
  | sessionExpired
  | noAudio
  | convError
  | alreadyComplete
  | answered (done : Bool) (transcript : String) (score : ℚ) (explanation : String)
deriving DecidableEq

/-- HTTP status attached to each reply by `app.py`. -/
def httpStatus : SubmitResp → ℕ
  | .sessionExpired => 440
  | .noAudio => 400
  | .convError => 500
  | .alreadyComplete => 200
  | .answered _ _ _ _ => 200

/-- Result of one `/candidate/answer` call: the successor state, the reply,
and the observable side effects (raw file saved/deleted, wav produced,
whisper invoked, scorer invoked). -/
structure SubmitOutcome where
  state : AppState
  resp : SubmitResp
  rawSaved : Bool
  rawDeleted : Bool
  wavConverted : Bool
  transcriptionCalled : Bool
  scoringCalled : Bool

/-- Model of `candidate_answer_audio` from `app.py`, in source order: session check;
audio-part check; save the raw upload; convert (on failure reply 500, the
`finally` block deleting the raw file either way); only then the
already-complete check; transcribe; score; `save_answer`; advance the
cursor; finalize if now done. -/
def candidate_answer_audio (s : AppState) (o : SubmitOracle) (candidate_id : String) :
    SubmitOutcome :=
  if o.hasSession = false then
    { state := s, resp := .sessionExpired, rawSaved := false, rawDeleted := false,
      wavConverted := false, transcriptionCalled := false, scoringCalled := false }
  else if o.hasAudio = false then
    { state := s, resp := .noAudio, rawSaved := false, rawDeleted := false,
      wavConverted := false, transcriptionCalled := false, scoringCalled := false }
  else if o.convOk = false then
    { state := s, resp := .convError, rawSaved := true, rawDeleted := true,
      wavConverted := false, transcriptionCalled := false, scoringCalled := false }
  else if h : s.questions.length ≤ s.q_index then
    { state := { s with db := update_candidate_score (finish_candidate s.db) },
      resp := .alreadyComplete, rawSaved := true, rawDeleted := true,
      wavConverted := true, transcriptionCalled := false, scoringCalled := false }
  else
    let current_question := s.questions.get ⟨s.q_index, by omega⟩
    let transcript := match o.transcription with | some t => t | none => ""
    let result := handle_candidate_text_answer_fast o.rag o.llm candidate_id
      current_question transcript true
    let db1 := save_answer s.db
      { question := current_question, answer := transcript,
        score := result.score, explanation := result.explanation }
    let done := s.questions.length ≤ s.q_index + 1
    { state :=
        { questions := s.questions, q_index := s.q_index + 1,
          db := if done then update_candidate_score (finish_candidate db1) else db1 },
      resp := .answered done transcript result.score
        (match result.explanation with | some e => e | none => ""),
      rawSaved := true, rawDeleted := true, wavConverted := true,
      transcriptionCalled := true, scoringCalled := true }

/-- The states a single candidate session can reach from creation through
any sequence of `next_question` and `submit_answer` calls. -/
inductive Reach : AppState → Prop where
  | init (questions : List String) :
      Reach { questions := questions, q_index := 0, db := create_candidate }
  | nextQ {s : AppState} : Reach s → Reach (candidate_next_question s).1
  | submit {s : AppState} (o : SubmitOracle) (cid : String) :
      Reach s → Reach (candidate_answer_audio s o cid).state

/-- The inductive invariant of a candidate session: the answer-row count
equals the cursor, and a finished candidate has consumed all questions and
carries the recomputed mean. -/
def Inv (s : AppState) : Prop :=
  s.db.answers.length = s.q_index ∧
  (s.db.finished = true →
    s.questions.length ≤ s.q_index ∧
    s.db.avg_score = sqlAvg (s.db.answers.map fun r => r.score))

/-! ### Concrete inputs used to instantiate the theorems -/

/-- A retrieval-index oracle returning a fixed explanation text. -/
def fixedRag : String → String → String := fun _ _ => "explanation text"

/-- A scoring model whose raw output never contains a valid score token. -/
def noNumberLlm : ℕ → String := fun _ => "unavailable"

/-- A scoring model that fails once and then returns "7". -/
def retryLlm : ℕ → String := fun n => if n = 0 then "no score here" else "7"

/-- The end-to-end scenario-B answer from the specification. -/
def c8answer : String :=
  "Because the architecture needed to scale, I redesigned the caching tradeoff layer"

/-- A finished one-question session (cursor at the end, row finalized). -/
def finishedState : AppState :=
  { questions := ["q1"], q_index := 1,
    db := { finished := true, avg_score := 5,
            answers := [{ question := "q1", answer := "a", score := 5,
                          explanation := none }] } }

/-- A fresh two-question session. -/
def freshState : AppState :=
  { questions := ["q1", "q2"], q_index := 0, db := create_candidate }

/-- A well-formed upload whose audio conversion succeeds or fails as given. -/
def uploadOracle (convOk : Bool) : SubmitOracle :=
  { hasSession := true, hasAudio := true, convOk := convOk,
    transcription := some "hello there", rag := fixedRag, llm := noNumberLlm }

/-! ## Supporting lemmas -/

theorem roundHalfEven_ge_floor (x : ℚ) : ⌊x⌋ ≤ roundHalfEven x := by
  unfold roundHalfEven
  split_ifs <;> omega

theorem roundHalfEven_le_ceil (x : ℚ) : roundHalfEven x ≤ ⌈x⌉ := by
  have hfr : Int.fract x = x - ⌊x⌋ := rfl
  unfold roundHalfEven
  split_ifs with h1 h2 h3
  · exact Int.floor_le_ceil x
  · exact Int.add_one_le_ceil_iff.mpr (by rw [hfr] at h2; linarith)
  · exact Int.floor_le_ceil x
  · exact Int.add_one_le_ceil_iff.mpr (by rw [hfr] at h1; push_neg at h1; linarith)

theorem pyRound2_nonneg {x : ℚ} (hx : 0 ≤ x) : 0 ≤ pyRound2 x := by
  unfold pyRound2
  have h1 : (0 : ℤ) ≤ ⌊x * 100⌋ := Int.floor_nonneg.mpr (by linarith)
  have h2 : (0 : ℤ) ≤ roundHalfEven (x * 100) := le_trans h1 (roundHalfEven_ge_floor _)
  exact div_nonneg (by exact_mod_cast h2) (by norm_num)

theorem pyRound2_le_ten {x : ℚ} (hx : x ≤ 10) : pyRound2 x ≤ 10 := by
  unfold pyRound2
  have h1 : ⌈x * 100⌉ ≤ (1000 : ℤ) := Int.ceil_le.mpr (by push_cast; linarith)
  have h3 : roundHalfEven (x * 100) ≤ 1000 := le_trans (roundHalfEven_le_ceil _) h1
  rw [div_le_iff (by norm_num)]
  calc (roundHalfEven (x * 100) : ℚ) ≤ 1000 := by exact_mod_cast h3
    _ = 10 * 100 := by norm_num

theorem pyRound2_mul_100_int (x : ℚ) : ∃ z : ℤ, pyRound2 x * 100 = z := by
  refine ⟨roundHalfEven (x * 100), ?_⟩
  unfold pyRound2
  field_simp

theorem extract_score_range {t : String} {v : ℚ} (h : extract_score t = some v) :
    0 ≤ v ∧ v ≤ 10 := by
  unfold extract_score at h
  rcases hsearch : regexSearchAux none t.data with _ | tok <;> rw [hsearch] at h
  · simp at h
  · dsimp only at h
    rcases hp : parseDecimal tok with _ | val <;> rw [hp] at h
    · simp at h
    · dsimp only at h
      split_ifs at h with hr
      simp only [Option.some.injEq] at h
      exact h ▸ hr

theorem fallbackHeuristic_range (answer : String) :
    0 ≤ fallbackHeuristic answer ∧ fallbackHeuristic answer ≤ 10 ∧
    ∃ z : ℤ, fallbackHeuristic answer * 100 = z := by
  unfold fallbackHeuristic
  split_ifs with h
  · exact ⟨le_refl 0, by norm_num, ⟨0, by norm_num⟩⟩
  all_goals exact ⟨pyRound2_nonneg (le_max_left _ _),
    pyRound2_le_ten (max_le (by norm_num) (min_le_left _ _)),
    pyRound2_mul_100_int _⟩

theorem scoreLoop_some_extract (llm : ℕ → String) :
    ∀ (fuel used : ℕ) {v : ℚ}, (scoreLoop llm fuel used).1 = some v →
      ∃ i, extract_score (llm i) = some v := by
  intro fuel
  induction fuel with
  | zero => intro used v h; simp [scoreLoop] at h
  | succ n ih =>
    intro used v h
    unfold scoreLoop at h
    rcases he : extract_score (llm used) with _ | w <;> rw [he] at h
    · exact ih _ h
    · simp only [Option.some.injEq] at h
      exact ⟨used, by rw [he, h]⟩

theorem score_answer_range (llm : ℕ → String) (question answer : String) (retries : ℕ) :
    0 ≤ score_answer_with_llm llm question answer retries ∧
    score_answer_with_llm llm question answer retries ≤ 10 ∧
    ∃ z : ℤ, score_answer_with_llm llm question answer retries * 100 = z := by
  unfold score_answer_with_llm
  rcases hsl : (scoreLoop llm (retries + 1) 0).1 with _ | v
  · exact fallbackHeuristic_range answer
  · obtain ⟨i, hi⟩ := scoreLoop_some_extract llm _ _ hsl
    obtain ⟨h0, h10⟩ := extract_score_range hi
    exact ⟨pyRound2_nonneg h0, pyRound2_le_ten h10, pyRound2_mul_100_int v⟩

theorem inv_init (questions : List String) :
    Inv { questions := questions, q_index := 0, db := create_candidate } := by
  refine ⟨rfl, fun hfin => ?_⟩
  simp [create_candidate] at hfin

theorem inv_nextQ {s : AppState} (h : Inv s) : Inv (candidate_next_question s).1 := by
  obtain ⟨hlen, hfin⟩ := h
  unfold candidate_next_question
  split_ifs with hdone
  · exact ⟨hlen, fun _ => ⟨hdone, rfl⟩⟩
  · exact ⟨hlen, hfin⟩

theorem inv_submit {s : AppState} (o : SubmitOracle) (cid : String) (h : Inv s) :
    Inv (candidate_answer_audio s o cid).state := by
  obtain ⟨hlen, hfin⟩ := h
  unfold candidate_answer_audio
  split_ifs with h1 h2 h3 h4
  · exact ⟨hlen, hfin⟩
  · exact ⟨hlen, hfin⟩
  · exact ⟨hlen, hfin⟩
  · exact ⟨hlen, fun _ => ⟨h4, rfl⟩⟩
  · dsimp only
    by_cases hdone : s.questions.length ≤ s.q_index + 1
    · rw [if_pos hdone]
      refine ⟨?_, fun _ => ⟨hdone, rfl⟩⟩
      simp [update_candidate_score, finish_candidate, save_answer, hlen]
    · rw [if_neg hdone]
      refine ⟨?_, fun hf => ?_⟩
      · simp [save_answer, hlen]
      · exact absurd (hfin hf).1 (by omega)

theorem reach_inv {s : AppState} (h : Reach s) : Inv s := by
  induction h with
  | init questions => exact inv_init questions
  | nextQ _ ih => exact inv_nextQ ih
  | submit o cid _ ih => exact inv_submit o cid ih

/-! ### Structure of regex matches -/

theorem takeWhile_all (p : Char → Bool) (l : List Char) : (l.takeWhile p).all p = true := by
  rw [List.all_eq_true]
  intro x hx
  exact List.mem_takeWhile_imp hx

theorem isDig_toNat {c : Char} (h : isDig c = true) : 48 ≤ c.toNat ∧ c.toNat ≤ 57 := by
  unfold isDig at h
  simp only [Bool.and_eq_true, decide_eq_true_eq] at h
  exact h

theorem isDig_ne_dot {c : Char} (h : isDig c = true) : c ≠ '.' := by
  intro he
  subst he
  exact absurd h (by decide)

theorem natOfDigits_go_lt (l : List Char) (h : l.all isDig = true) :
    ∀ a : ℕ, l.foldl (fun a c => 10 * a + (c.toNat - 48)) a < 10 ^ l.length * (a + 1) := by
  induction l with
  | nil => intro a; simpa using Nat.lt_succ_self a
  | cons c t ih =>
    intro a
    simp only [List.all_cons, Bool.and_eq_true] at h
    have hc : c.toNat - 48 ≤ 9 := by
      have := isDig_toNat h.1
      omega
    have hrec := ih h.2 (10 * a + (c.toNat - 48))
    simp only [List.foldl_cons, List.length_cons]
    calc t.foldl (fun a c => 10 * a + (c.toNat - 48)) (10 * a + (c.toNat - 48))
        < 10 ^ t.length * (10 * a + (c.toNat - 48) + 1) := hrec
      _ ≤ 10 ^ t.length * (10 * (a + 1)) := by
          exact Nat.mul_le_mul_left _ (by omega)
      _ = 10 ^ (t.length + 1) * (a + 1) := by ring

theorem natOfDigits_lt (l : List Char) (h : l.all isDig = true) :
    natOfDigits l < 10 ^ l.length := by
  have := natOfDigits_go_lt l h 0
  simpa [natOfDigits] using this

theorem natOfDigits_zeros (l : List Char) (h : l.all (fun x => x = '0') = true) :
    natOfDigits l = 0 := by
  unfold natOfDigits
  induction l with
  | nil => rfl
  | cons c t ih =>
    simp only [List.all_cons, Bool.and_eq_true, decide_eq_true_eq] at h
    obtain ⟨hc, ht⟩ := h
    subst hc
    simpa using ih (by simpa using ht)

theorem all_zero_isDig (l : List Char) (h : l.all (fun x => x = '0') = true) :
    l.all isDig = true := by
  rw [List.all_eq_true] at h ⊢
  intro x hx
  have := h x hx
  simp only [decide_eq_true_eq] at this
  subst this
  decide

theorem parseDecimal_single {c : Char} (hc : isDig c = true) :
    parseDecimal [c] = some ((c.toNat - 48 : ℕ) : ℚ) ∧
    (0 : ℚ) ≤ ((c.toNat - 48 : ℕ) : ℚ) ∧ ((c.toNat - 48 : ℕ) : ℚ) ≤ 10 := by
  have hcd : c ≠ '.' := isDig_ne_dot hc
  have hb := isDig_toNat hc
  refine ⟨?_, by positivity, ?_⟩
  · unfold parseDecimal
    simp [List.takeWhile_cons, List.dropWhile_cons, hcd, hc, natOfDigits]
  · have : c.toNat - 48 ≤ 9 := by omega
    calc ((c.toNat - 48 : ℕ) : ℚ) ≤ (9 : ℕ) := by exact_mod_cast this
      _ ≤ 10 := by norm_num

theorem parseDecimal_ten_frac {zs : List Char} (hne : ¬ zs.isEmpty = true)
    (hz : zs.all (fun x => x = '0') = true) :
    parseDecimal ('1' :: '0' :: '.' :: zs) = some 10 := by
  have htw : (('1' :: '0' :: '.' :: zs).takeWhile fun c => c ≠ '.') = ['1', '0'] := by
    simp [List.takeWhile_cons]
  have hdw : (('1' :: '0' :: '.' :: zs).dropWhile fun c => c ≠ '.') = '.' :: zs := by
    simp [List.dropWhile_cons]
  unfold parseDecimal
  rw [htw, hdw]
  have h2 : (['1', '0'] : List Char).all isDig = true := by decide
  have h3 : natOfDigits ['1', '0'] = 10 := by decide
  simp [h2, h3, hne, all_zero_isDig zs hz, natOfDigits_zeros zs hz]

theorem parseDecimal_digit_frac {c : Char} {ds : List Char} (hc : isDig c = true)
    (hne : ¬ ds.isEmpty = true) (hds : ds.all isDig = true) :
    ∃ v, parseDecimal (c :: '.' :: ds) = some v ∧ 0 ≤ v ∧ v ≤ 10 := by
  have hcd : c ≠ '.' := isDig_ne_dot hc
  have hb := isDig_toNat hc
  refine ⟨((c.toNat - 48 : ℕ) : ℚ) + (natOfDigits ds : ℚ) / (10 : ℚ) ^ ds.length, ?_, ?_, ?_⟩
  · have htw : ((c :: '.' :: ds).takeWhile fun x => x ≠ '.') = [c] := by
      simp [List.takeWhile_cons, hcd]
    have hdw : ((c :: '.' :: ds).dropWhile fun x => x ≠ '.') = '.' :: ds := by
      simp [List.dropWhile_cons, hcd]
    unfold parseDecimal
    rw [htw, hdw]
    have h2 : ([c] : List Char).all isDig = true := by simp [hc]
    have h3 : natOfDigits [c] = c.toNat - 48 := by simp [natOfDigits]
    simp [h2, h3, hne, hds]
  · positivity
  · have hfrac : (natOfDigits ds : ℚ) / (10 : ℚ) ^ ds.length < 1 := by
      rw [div_lt_one (by positivity)]
      exact_mod_cast natOfDigits_lt ds hds
    have hcle : c.toNat - 48 ≤ 9 := by omega
    have : ((c.toNat - 48 : ℕ) : ℚ) ≤ 9 := by exact_mod_cast hcle
    linarith

theorem branch1Tail_shape {rest frac rem : List Char}
    (h : branch1Tail rest = some (frac, rem)) :
    frac = [] ∨
    ∃ zs, frac = '.' :: zs ∧ ¬ zs.isEmpty = true ∧ zs.all (fun x => x = '0') = true := by
  rcases rest with _ | ⟨c, t⟩
  · left
    simp only [branch1Tail, Option.some.injEq, Prod.mk.injEq] at h
    exact h.1.symm
  · unfold branch1Tail at h
    dsimp only at h
    split_ifs at h with h1 h2 h3 h4
    · simp only [Option.some.injEq, Prod.mk.injEq] at h
      left; exact h.1.symm
    · simp only [Option.some.injEq, Prod.mk.injEq] at h
      left; exact h.1.symm
    · simp only [Option.some.injEq, Prod.mk.injEq] at h
      right
      exact ⟨t.takeWhile fun x => x = '0', h.1.symm, h2, takeWhile_all _ _⟩
    · simp only [Option.some.injEq, Prod.mk.injEq] at h
      left; exact h.1.symm

theorem branch2_shape {l tok rem : List Char} (h : branch2 l = some (tok, rem)) :
    (∃ c, tok = [c] ∧ isDig c = true) ∨
    (∃ c ds, tok = c :: '.' :: ds ∧ isDig c = true ∧ ¬ ds.isEmpty = true ∧
      ds.all isDig = true) := by
  rcases l with _ | ⟨c, rest⟩
  · simp [branch2] at h
  · unfold branch2 at h
    dsimp only at h
    split_ifs at h with hc
    · rcases rest with _ | ⟨c2, t⟩
      · dsimp only at h
        simp only [Option.some.injEq, Prod.mk.injEq] at h
        exact Or.inl ⟨c, h.1.symm, hc⟩
      · dsimp only at h
        split_ifs at h with hdot h2 h3 h4
        · simp only [Option.some.injEq, Prod.mk.injEq] at h
          exact Or.inl ⟨c, h.1.symm, hc⟩
        · simp only [Option.some.injEq, Prod.mk.injEq] at h
          exact Or.inl ⟨c, h.1.symm, hc⟩
        · simp only [Option.some.injEq, Prod.mk.injEq] at h
          subst hdot
          exact Or.inr ⟨c, t.takeWhile isDig, h.1.symm, hc, h2, takeWhile_all _ _⟩
        · simp only [Option.some.injEq, Prod.mk.injEq] at h
          exact Or.inl ⟨c, h.1.symm, hc⟩

theorem matchHere_parse {l tok rem : List Char} (h : matchHere l = some (tok, rem)) :
    ∃ v, parseDecimal tok = some v ∧ 0 ≤ v ∧ v ≤ 10 := by
  have hb2 : ∀ {l' : List Char}, branch2 l' = some (tok, rem) →
      ∃ v, parseDecimal tok = some v ∧ 0 ≤ v ∧ v ≤ 10 := by
    intro l' h2
    rcases branch2_shape h2 with ⟨c, htok, hc⟩ | ⟨c, ds, htok, hc, hne, hds⟩
    · subst htok
      obtain ⟨hp, h0, h10⟩ := parseDecimal_single hc
      exact ⟨_, hp, h0, h10⟩
    · subst htok
      exact parseDecimal_digit_frac hc hne hds
  rcases l with _ | ⟨c1, l1⟩
  · exact hb2 (show branch2 [] = some (tok, rem) from h)
  rcases l1 with _ | ⟨c2, rest⟩
  · exact hb2 (show branch2 [c1] = some (tok, rem) from h)
  unfold matchHere at h
  dsimp only at h
  split_ifs at h with h10
  · obtain ⟨hc1, hc2⟩ := h10
    subst hc1; subst hc2
    rcases hbt : branch1Tail rest with _ | ⟨frac, rem'⟩ <;> rw [hbt] at h
    · exact hb2 h
    · simp only [Option.some.injEq, Prod.mk.injEq] at h
      obtain ⟨htok, _⟩ := h
      subst htok
      rcases branch1Tail_shape hbt with hnil | ⟨zs, hfr, hzne, hz⟩
      · subst hnil
        exact ⟨10, by decide, by norm_num, by norm_num⟩
      · subst hfr
        exact ⟨10, parseDecimal_ten_frac hzne hz, by norm_num, by norm_num⟩
  · exact hb2 h

theorem regexSearchAux_match {tok : List Char} :
    ∀ (l : List Char) (prev : Option Char), regexSearchAux prev l = some tok →
      ∃ l' rem, matchHere l' = some (tok, rem) := by
  intro l
  induction l with
  | nil => intro prev h; simp [regexSearchAux] at h
  | cons c rest ih =>
    intro prev h
    unfold regexSearchAux at h
    split_ifs at h with hp
    · exact ih _ h
    · rcases hm : matchHere (c :: rest) with _ | ⟨tok', rem'⟩ <;> rw [hm] at h
      · exact ih _ h
      · simp only [Option.some.injEq] at h
        subst h
        exact ⟨c :: rest, rem', hm⟩

theorem extract_score_of_search {t : String} {tok : List Char}
    (h : regexSearchAux none t.data = some tok) :
    ∃ v, parseDecimal tok = some v ∧ 0 ≤ v ∧ v ≤ 10 ∧ extract_score t = some v := by
  obtain ⟨l', rem, hm⟩ := regexSearchAux_match t.data none h
  obtain ⟨v, hp, h0, h10⟩ := matchHere_parse hm
  refine ⟨v, hp, h0, h10, ?_⟩
  unfold extract_score
  rw [h]
  dsimp only
  rw [hp]
  dsimp only
  rw [if_pos ⟨h0, h10⟩]

/-! ### Evaluation helpers -/

theorem roundHalfEven_intCast (n : ℤ) : roundHalfEven (n : ℚ) = n := by
  unfold roundHalfEven
  simp [Int.fract_intCast]

theorem pyRound2_eval {q : ℚ} {z : ℤ} (hq : q * 100 = (z : ℚ)) :
    pyRound2 q = (z : ℚ) / 100 := by
  unfold pyRound2
  rw [hq, roundHalfEven_intCast]

theorem scoreLoop_two (llm : ℕ → String) :
    scoreLoop llm 2 0 =
      match extract_score (llm 0) with
      | some v => (some v, 1)
      | none =>
        match extract_score (llm 1) with
        | some w => (some w, 2)
        | none => (none, 2) := by
  rcases h0 : extract_score (llm 0) with _ | v <;>
    rcases h1 : extract_score (llm 1) with _ | w <;>
    simp only [scoreLoop, h0, h1]

theorem score_answer_two (llm : ℕ → String) (question answer : String) :
    score_answer_with_llm llm question answer 1 =
      match extract_score (llm 0) with
      | some v => pyRound2 v
      | none =>
        match extract_score (llm 1) with
        | some w => pyRound2 w
        | none => fallbackHeuristic answer := by
  unfold score_answer_with_llm
  rw [scoreLoop_two]
  rcases h0 : extract_score (llm 0) with _ | v <;>
    rcases h1 : extract_score (llm 1) with _ | w <;> simp only

/-! ## C4 — empty transcript -/

/-- C4: for every transcript that is empty or whitespace-only after
trimming, `handle_candidate_text_answer_fast` returns score `0.0` with the
fixed "no answer detected" explanation and makes zero scoring-model calls
and zero retrieval-index calls. -/
theorem C4_empty_transcript (rag : String → String → String) (llm : ℕ → String)
    (candidate_id question transcript : String) (h : pyStrip transcript = "") :
    handle_candidate_text_answer_fast rag llm candidate_id question transcript true =
      { score := 0,
        explanation := some "No answer detected. Try speaking a bit louder or closer to the mic.",
        llmCalls := 0, ragCalls := 0 } := by
  unfold handle_candidate_text_answer_fast
  rw [h]
  rfl

/-- Witness for C4 at the whitespace-only transcript `"   "`. -/
theorem C4_empty_transcript_witness :
    handle_candidate_text_answer_fast fixedRag noNumberLlm "c" "q" "   " true =
      { score := 0,
        explanation := some "No answer detected. Try speaking a bit louder or closer to the mic.",
        llmCalls := 0, ragCalls := 0 } :=
  C4_empty_transcript fixedRag noNumberLlm "c" "q" "   " (by decide)

/-! ## C5 — scores always in range, two decimals -/

/-- C5: for every question, non-empty answer and scoring-model output
sequence, `score_answer_with_llm` returns a value in `[0, 10]` that is a
whole number of hundredths (rounded to two decimal places). -/
theorem C5_score_in_range (llm : ℕ → String) (question answer : String) (retries : ℕ)
    (h : pyStrip answer ≠ "") :
    0 ≤ score_answer_with_llm llm question answer retries ∧
    score_answer_with_llm llm question answer retries ≤ 10 ∧
    ∃ z : ℤ, score_answer_with_llm llm question answer retries * 100 = z :=
  score_answer_range llm question answer retries

/-- Witness for C5 at a malformed scoring-model output. -/
theorem C5_score_in_range_witness :
    0 ≤ score_answer_with_llm noNumberLlm "q" "hello world" 1 ∧
    score_answer_with_llm noNumberLlm "q" "hello world" 1 ≤ 10 ∧
    ∃ z : ℤ, score_answer_with_llm noNumberLlm "q" "hello world" 1 * 100 = z :=
  C5_score_in_range noNumberLlm "q" "hello world" 1 (by decide)

/-! ## C6 — the explain trigger -/

/-- C6: for every transcript whose lower-cased, trimmed form is in
`EXPLAIN_TRIGGERS` or contains "explain" within at most 6 whitespace
tokens (the `_is_explain_trigger` condition), the scorer returns score
`0.0` with an explanation obtained from the retrieval index and never
invokes the scoring model. -/
theorem C6_explain_trigger (rag : String → String → String) (llm : ℕ → String)
    (candidate_id question transcript : String)
    (h : is_explain_trigger (pyStrip transcript) = true) :
    handle_candidate_text_answer_fast rag llm candidate_id question transcript true =
      { score := 0, explanation := some (rag candidate_id (explainPrompt question)),
        llmCalls := 0, ragCalls := 1 } := by
  have hne : pyStrip transcript ≠ "" := by
    intro he
    rw [he] at h
    exact absurd h (by decide)
  unfold handle_candidate_text_answer_fast
  rw [if_neg hne, if_pos h]

/-- Witness for C6 at the transcript `"IDK"` (upper case). -/
theorem C6_explain_trigger_witness :
    handle_candidate_text_answer_fast fixedRag noNumberLlm "c" "q" "IDK" true =
      { score := 0, explanation := some (fixedRag "c" (explainPrompt "q")),
        llmCalls := 0, ragCalls := 1 } :=
  C6_explain_trigger fixedRag noNumberLlm "c" "q" "IDK" (by decide)

/-! ## C8 — the fallback heuristic -/

theorem max_min_swap (e : ℚ) : max 0 (min 10 e) = min 10 (max 0 e) := by
  rw [max_min_distrib_left]
  norm_num

/-- C8 counterexample: the scenario-B answer has 12 whitespace-delimited
words, not 14, so with the scoring model unavailable the code's heuristic
yields `round(4.0 + (12/80)*4.0 + 2.0, 2) = 6.60`, not the claimed `6.70`. -/
theorem C8_scenario_b_value_counterexample :
    wordCount c8answer = 12 ∧
    score_answer_with_llm noNumberLlm "q" c8answer 1 = 33 / 5 ∧
    (33 / 5 : ℚ) ≠ 67 / 10 := by
  refine ⟨by decide, ?_, by norm_num⟩
  have h2 : scoreLoop noNumberLlm 2 0 = (none, 2) := by decide
  have hwc : wordCount c8answer = 12 := by decide
  have hkw : (depthKeywords.any fun k => containsSub k.data (pyLower c8answer).data) = true := by
    decide
  have hne : ¬ (pyStrip c8answer = "") := by decide
  unfold score_answer_with_llm
  rw [h2]
  unfold fallbackHeuristic
  rw [if_neg hne]
  dsimp only
  rw [hwc, hkw, if_pos rfl]
  have harg : (0 : ℚ) ⊔ 10 ⊓ (4 + (((12 : ℕ) : ℚ) / 80 ⊓ 1) * 4 + 2) = 33 / 5 := by
    rw [min_def, min_def, max_def]
    norm_num
  rw [harg, pyRound2_eval (show (33 / 5 : ℚ) * 100 = ((660 : ℤ) : ℚ) by norm_num)]
  norm_num

/-- C8 (amended): whenever neither scoring-model attempt yields a valid
number and the answer is non-blank, `score_answer_with_llm` returns exactly
`round(min(10, max(0, 4.0 + min(word_count/80, 1.0)*4.0 + depth_bonus)), 2)`
with `depth_bonus = 2.0` iff a depth keyword occurs; on the scenario-B
answer (12 words, two-plus depth keywords) this equals 6.60, not 6.70. -/
theorem C8_heuristic_formula (llm : ℕ → String) (question answer : String)
    (h0 : extract_score (llm 0) = none) (h1 : extract_score (llm 1) = none)
    (hne : pyStrip answer ≠ "") :
    score_answer_with_llm llm question answer 1 =
      pyRound2 (min 10 (max 0 (4 + (min ((wordCount answer : ℚ) / 80) 1) * 4 +
        (if depthKeywords.any (fun k => containsSub k.data (pyLower answer).data)
          then 2 else 0)))) := by
  rw [score_answer_two, h0, h1]
  dsimp only
  unfold fallbackHeuristic
  rw [if_neg hne]
  dsimp only
  rw [max_min_swap]

/-- Witness for C8 (amended) at the scenario-B answer itself. -/
theorem C8_heuristic_formula_witness :
    score_answer_with_llm noNumberLlm "q" c8answer 1 =
      pyRound2 (min 10 (max 0 (4 + (min ((wordCount c8answer : ℚ) / 80) 1) * 4 +
        (if depthKeywords.any (fun k => containsSub k.data (pyLower c8answer).data)
          then 2 else 0)))) :=
  C8_heuristic_formula noNumberLlm "q" c8answer (by decide) (by decide) (by decide)

/-! ## C9 — first-match numeric extraction, one retry -/

/-- C9: numeric extraction takes the first regex match (on
`"Clarity: 8, Depth: 5"` that is `8`) and accepts only values in
`[0, 10]`; `score_answer_with_llm` with `retries = 1` returns the first
extracted value rounded, uses the second attempt only when the first has no
valid number, and falls back to the heuristic only when both attempts fail. -/
theorem C9_first_number_extraction (llm : ℕ → String) (question answer : String) :
    extract_score "Clarity: 8, Depth: 5" = some 8 ∧
    (∀ t v, extract_score t = some v → 0 ≤ v ∧ v ≤ 10) ∧
    (∀ v, extract_score (llm 0) = some v →
      score_answer_with_llm llm question answer 1 = pyRound2 v) ∧
    (extract_score (llm 0) = none → ∀ w, extract_score (llm 1) = some w →
      score_answer_with_llm llm question answer 1 = pyRound2 w) ∧
    (extract_score (llm 0) = none → extract_score (llm 1) = none →
      score_answer_with_llm llm question answer 1 = fallbackHeuristic answer) := by
  refine ⟨by decide, fun t v h => extract_score_range h, fun v hv => ?_,
    fun h0 w hw => ?_, fun h0 h1 => ?_⟩
  · rw [score_answer_two, hv]
  · rw [score_answer_two, h0, hw]
  · rw [score_answer_two, h0, h1]

/-- Witness for C9: the model fails once, answers "7" on the retry, and the
returned score is that second extraction rounded. -/
theorem C9_first_number_extraction_witness :
    score_answer_with_llm retryLlm "q" "an answer" 1 = pyRound2 7 :=
  (C9_first_number_extraction retryLlm "q" "an answer").2.2.2.1 (by decide) 7 (by decide)

/-! ## C10 — every regex match parses into range -/

/-- C10: `extract_score` returns `none` or a value already in `[0, 10]`;
whenever the regex search finds a match, the match parses into `[0, 10]`
and extraction succeeds (the range check never rejects a match); the digit
lookarounds reject digits embedded in longer runs, so on `"85"`, `"100"`
and `"Score: 85"` extraction returns `none` and `score_answer_with_llm`
engages the fallback heuristic. -/
theorem C10_match_always_in_range (text answer : String) :
    (∀ v, extract_score text = some v → 0 ≤ v ∧ v ≤ 10) ∧
    (∀ tok, regexSearchAux none text.data = some tok →
      ∃ v, parseDecimal tok = some v ∧ 0 ≤ v ∧ v ≤ 10 ∧ extract_score text = some v) ∧
    extract_score "85" = none ∧
    extract_score "100" = none ∧
    extract_score "Score: 85" = none ∧
    score_answer_with_llm (fun _ => "85") "q" answer 1 = fallbackHeuristic answer := by
  refine ⟨fun v h => extract_score_range h, fun tok h => extract_score_of_search h,
    by decide, by decide, by decide, ?_⟩
  rw [score_answer_two]
  have h85 : extract_score "85" = none := by decide
  rw [h85]

/-- Witness for C10 at the input `"7.5"`, whose match parses to `7.5`. -/
theorem C10_match_always_in_range_witness :
    ∃ v, parseDecimal "7.5".data = some v ∧ 0 ≤ v ∧ v ≤ 10 ∧
      extract_score "7.5" = some v :=
  (C10_match_always_in_range "7.5" "a").2.1 "7.5".data (by decide)

/-! ## Session state machine claims -/

theorem true_ne_false_eq : ¬ (true = false) := by decide

theorem submit_cases (s : AppState) (o : SubmitOracle) (cid : String) :
    (candidate_answer_audio s o cid).state = s ∨
    ((candidate_answer_audio s o cid).state =
        { s with db := update_candidate_score (finish_candidate s.db) } ∧
      s.questions.length ≤ s.q_index) ∨
    (s.q_index < s.questions.length ∧ ∃ r : AnswerRecord,
      (candidate_answer_audio s o cid).state.db.answers = s.db.answers ++ [r] ∧
      (candidate_answer_audio s o cid).state.q_index = s.q_index + 1 ∧
      (candidate_answer_audio s o cid).state.questions = s.questions ∧
      ((candidate_answer_audio s o cid).state.q_index = s.questions.length →
        (candidate_answer_audio s o cid).state.db.finished = true)) := by
  unfold candidate_answer_audio
  split_ifs with h1 h2 h3 h4
  · exact Or.inl rfl
  · exact Or.inl rfl
  · exact Or.inl rfl
  · exact Or.inr (Or.inl ⟨rfl, h4⟩)
  · refine Or.inr (Or.inr ⟨by omega, ?_⟩)
    dsimp only
    by_cases hdone : s.questions.length ≤ s.q_index + 1
    · rw [if_pos hdone]
      exact ⟨_, rfl, rfl, rfl, fun _ => rfl⟩
    · rw [if_neg hdone]
      exact ⟨_, rfl, rfl, rfl, fun hq => absurd hq (by omega)⟩

theorem submit_main (s : AppState) (o : SubmitOracle) (cid : String)
    (hs : o.hasSession = true) (ha : o.hasAudio = true) (hc : o.convOk = true)
    (hlt : s.q_index < s.questions.length) :
    ∃ r : AnswerRecord,
      (candidate_answer_audio s o cid).state.db.answers = s.db.answers ++ [r] ∧
      (candidate_answer_audio s o cid).state.q_index = s.q_index + 1 := by
  unfold candidate_answer_audio
  rw [hs, ha, hc, if_neg true_ne_false_eq, if_neg true_ne_false_eq, if_neg true_ne_false_eq,
    dif_neg (by omega)]
  dsimp only
  by_cases hdone : s.questions.length ≤ s.q_index + 1
  · rw [if_pos hdone]
    exact ⟨_, rfl, rfl⟩
  · rw [if_neg hdone]
    exact ⟨_, rfl, rfl⟩

/-- C1: on every reachable session state the answer-record count equals the
cursor; a `submit_answer` call either leaves both the records and the
cursor unchanged or appends exactly one record while advancing the cursor
by exactly one (persist and advance happen together, never one without the
other); a submit that advances the cursor to `len(questions)` leaves the
candidate marked finished; and `next_question` never mutates the cursor or
the records. -/
theorem C1_cursor_record_invariant (s : AppState) (h : Reach s) :
    s.db.answers.length = s.q_index ∧
    (∀ (o : SubmitOracle) (cid : String),
      ((candidate_answer_audio s o cid).state.db.answers = s.db.answers ∧
        (candidate_answer_audio s o cid).state.q_index = s.q_index) ∨
      (∃ r, (candidate_answer_audio s o cid).state.db.answers = s.db.answers ++ [r] ∧
        (candidate_answer_audio s o cid).state.q_index = s.q_index + 1)) ∧
    (∀ (o : SubmitOracle) (cid : String),
      (candidate_answer_audio s o cid).state.q_index = s.q_index + 1 →
      (candidate_answer_audio s o cid).state.q_index = s.questions.length →
      (candidate_answer_audio s o cid).state.db.finished = true) ∧
    (candidate_next_question s).1.q_index = s.q_index ∧
    (candidate_next_question s).1.db.answers = s.db.answers := by
  refine ⟨(reach_inv h).1, fun o cid => ?_, fun o cid hadv hlen => ?_, ?_, ?_⟩
  · rcases submit_cases s o cid with h1 | ⟨h2, _⟩ | ⟨_, r, hr1, hr2, _, _⟩
    · rw [h1]; exact Or.inl ⟨rfl, rfl⟩
    · rw [h2]; exact Or.inl ⟨rfl, rfl⟩
    · exact Or.inr ⟨r, hr1, hr2⟩
  · rcases submit_cases s o cid with h1 | ⟨h2, _⟩ | ⟨_, r, hr1, hr2, _, hfin⟩
    · rw [h1] at hadv; omega
    · rw [h2] at hadv; dsimp only at hadv; omega
    · exact hfin hlen
  · unfold candidate_next_question
    split_ifs <;> rfl
  · unfold candidate_next_question
    split_ifs <;> rfl

/-- Witness for C1 at a freshly created two-question session. -/
theorem C1_cursor_record_invariant_witness :
    freshState.db.answers.length = freshState.q_index :=
  (C1_cursor_record_invariant freshState (Reach.init ["q1", "q2"])).1

/-- C2: when the session and audio part are present but audio conversion
raises, `submit_answer` replies with the 500 conversion error, changes
nothing in the session state (no Answer Record, cursor unchanged), deletes
the raw file — as it does on every call that saved one, converted or not —
and an identical resubmission with working conversion then persists exactly
one record and advances the cursor. -/
theorem C2_conversion_failure (s : AppState) (o : SubmitOracle) (cid : String)
    (hs : o.hasSession = true) (ha : o.hasAudio = true) (hc : o.convOk = false) :
    (candidate_answer_audio s o cid).resp = SubmitResp.convError ∧
    httpStatus (candidate_answer_audio s o cid).resp = 500 ∧
    (candidate_answer_audio s o cid).state = s ∧
    (candidate_answer_audio s o cid).rawSaved = true ∧
    (candidate_answer_audio s o cid).rawDeleted = true ∧
    (∀ o2 : SubmitOracle, o2.hasSession = true → o2.hasAudio = true →
      (candidate_answer_audio s o2 cid).rawSaved = true ∧
      (candidate_answer_audio s o2 cid).rawDeleted = true) ∧
    (s.q_index < s.questions.length →
      ∀ o2 : SubmitOracle, o2.hasSession = true → o2.hasAudio = true → o2.convOk = true →
      ∃ r, (candidate_answer_audio (candidate_answer_audio s o cid).state o2 cid).state.db.answers
            = s.db.answers ++ [r] ∧
        (candidate_answer_audio (candidate_answer_audio s o cid).state o2 cid).state.q_index
            = s.q_index + 1) := by
  have hmain : candidate_answer_audio s o cid =
      { state := s, resp := .convError, rawSaved := true, rawDeleted := true,
        wavConverted := false, transcriptionCalled := false, scoringCalled := false } := by
    unfold candidate_answer_audio
    rw [hs, ha, hc, if_neg true_ne_false_eq, if_neg true_ne_false_eq, if_pos rfl]
  refine ⟨by rw [hmain], by rw [hmain]; rfl, by rw [hmain], by rw [hmain], by rw [hmain],
    fun o2 hs2 ha2 => ?_, fun hlt o2 hs2 ha2 hc2 => ?_⟩
  · unfold candidate_answer_audio
    rw [hs2, ha2, if_neg true_ne_false_eq, if_neg true_ne_false_eq]
    rcases hc2 : o2.convOk
    · rw [if_pos rfl]
      exact ⟨rfl, rfl⟩
    · rw [if_neg true_ne_false_eq]
      split_ifs <;> exact ⟨rfl, rfl⟩
  · rw [hmain]
    exact submit_main s o2 cid hs2 ha2 hc2 hlt

/-- Witness for C2 on a fresh session whose upload fails to convert. -/
theorem C2_conversion_failure_witness :
    (candidate_answer_audio freshState (uploadOracle false) "c").resp =
      SubmitResp.convError :=
  (C2_conversion_failure freshState (uploadOracle false) "c" rfl rfl rfl).1

/-- C3 counterexample: on a finished session the already-complete check is
not step (a): the raw audio is still saved and converted first, so a
conversion failure on a finished candidate yields the conversion error, not
the already-complete reply. -/
theorem C3_finished_check_order_counterexample :
    (candidate_answer_audio finishedState (uploadOracle false) "cid").resp =
      SubmitResp.convError ∧
    SubmitResp.convError ≠ SubmitResp.alreadyComplete ∧
    (candidate_answer_audio finishedState (uploadOracle true) "cid").rawSaved = true ∧
    (candidate_answer_audio finishedState (uploadOracle true) "cid").wavConverted = true :=
  ⟨by decide, by decide, by decide, by decide⟩

/-- C3 (amended): a submit on a finished candidate (cursor at
`len(questions)`) whose audio converts is a no-op that replies
already-complete, persists no new Answer Record, leaves the cursor
unchanged and performs no transcription or scoring — but the
finished-candidate check runs only after the raw audio has been persisted
and converted, so the raw upload is still saved and converted (and a
conversion failure is reported as such even when finished). -/
theorem C3_finished_submit_noop (s : AppState) (o : SubmitOracle) (cid : String)
    (hfin : s.questions.length ≤ s.q_index) (hs : o.hasSession = true)
    (ha : o.hasAudio = true) (hc : o.convOk = true) :
    (candidate_answer_audio s o cid).resp = SubmitResp.alreadyComplete ∧
    (candidate_answer_audio s o cid).state.db.answers = s.db.answers ∧
    (candidate_answer_audio s o cid).state.q_index = s.q_index ∧
    (candidate_answer_audio s o cid).transcriptionCalled = false ∧
    (candidate_answer_audio s o cid).scoringCalled = false ∧
    (candidate_answer_audio s o cid).rawSaved = true ∧
    (candidate_answer_audio s o cid).wavConverted = true := by
  have hmain : candidate_answer_audio s o cid =
      { state := { s with db := update_candidate_score (finish_candidate s.db) },
        resp := .alreadyComplete, rawSaved := true, rawDeleted := true,
        wavConverted := true, transcriptionCalled := false, scoringCalled := false } := by
    unfold candidate_answer_audio
    rw [hs, ha, hc, if_neg true_ne_false_eq, if_neg true_ne_false_eq, if_neg true_ne_false_eq,
      dif_pos hfin]
  rw [hmain]
  exact ⟨rfl, rfl, rfl, rfl, rfl, rfl, rfl⟩

/-- Witness for C3 (amended) on the finished one-question session. -/
theorem C3_finished_submit_noop_witness :
    (candidate_answer_audio finishedState (uploadOracle true) "cid").resp =
      SubmitResp.alreadyComplete :=
  (C3_finished_submit_noop finishedState (uploadOracle true) "cid" (by decide) rfl rfl rfl).1

/-- C7: on every reachable state, a finished candidate's stored aggregate
equals `AVG` of the persisted answer scores (the arithmetic mean, `0` for
an empty answer set, matching SQL `AVG … or 0`); and the finalize step
(`finish_candidate` followed by `update_candidate_score`) is idempotent on
any candidate row, always leaving `finished` set and the aggregate equal to
that mean. -/
theorem C7_aggregate_mean_idempotent (s : AppState) (h : Reach s) :
    (s.db.finished = true →
      s.db.avg_score = sqlAvg (s.db.answers.map fun r => r.score)) ∧
    (∀ db : DB,
      update_candidate_score (finish_candidate (update_candidate_score (finish_candidate db))) =
        update_candidate_score (finish_candidate db)) ∧
    (∀ db : DB,
      (update_candidate_score (finish_candidate db)).avg_score =
        sqlAvg (db.answers.map fun r => r.score) ∧
      (update_candidate_score (finish_candidate db)).finished = true) := by
  exact ⟨fun hf => ((reach_inv h).2 hf).2, fun db => rfl, fun db => ⟨rfl, rfl⟩⟩

/-- Witness for C7 at the finished state reached by fetching the next
question of an empty question set. -/
theorem C7_aggregate_mean_idempotent_witness :
    (candidate_next_question { questions := [], q_index := 0, db := create_candidate }).1.db.avg_score
      = sqlAvg ((candidate_next_question
          { questions := [], q_index := 0, db := create_candidate }).1.db.answers.map
            fun r => r.score) :=
  (C7_aggregate_mean_idempotent _ (Reach.nextQ (Reach.init []))).1 (by decide)

end InterviewAssistant
